import Mathlib

/-!
Verification development for the Ping-Test repository (src/main.go).

The Go program logs into a fixed set of vantage hosts over SSH, runs a
`ping -c 3 <destination>` from each one concurrently, streams each probe's
TestResult back over a buffered channel, and drives a bubbletea view model
that accumulates the results until all hosts have reported.

This file shallowly embeds the program: `testServer`, `logResult`,
`runTests`, `CheckMoreResults`, `Model.Update`, `Model.View` become Lean
functions; the concurrent run (goroutines, channel receives, key events)
becomes an explicit step function on a system state, with reachability as an
inductive predicate.  External collaborators (the ssh library, the bubbles
widgets) are modelled from their documented contracts where the program's
behaviour depends on them; purely visual widget output is modelled by simple
computable stand-ins that no theorem depends on.
-/

namespace PingTest

/-- Characters of the pattern `p` appear at the start of `s` (helper for the
embedding of Go's strings.Contains). -/
def charsHavePre : List Char → List Char → Bool
  | _, [] => true
  | [], _ :: _ => false
  | a :: s, b :: p => a == b && charsHavePre s p

/-- Characters of the pattern `p` appear contiguously somewhere in `s`. -/
def charsHaveSub : List Char → List Char → Bool
  | [], p => charsHavePre [] p
  | a :: s, p => charsHavePre (a :: s) p || charsHaveSub s p

/-- Embedding of Go's strings.Contains. -/
def stringsContains (s sub : String) : Bool :=
  charsHaveSub s.data sub.data

/-- Server record parsed from servers.yaml (src/main.go lines 20-25). -/
structure Server where
  name : String
  host : String
  user : String
  password : String
deriving DecidableEq

/-- TestResult (src/main.go lines 31-37); the wall-clock timestamp is
abstracted as a natural number. -/
structure TestResult where
  server : String
  target : String
  success : Bool
  output : String
  timestamp : Nat
deriving DecidableEq

/-- Outcome of the remote command execution, as the ssh session reports it:
an optional transport-level failure, the remote exit status, and the captured
combined output. -/
structure ExecOutcome where
  transportErr : Option String
  exitStatus : Nat
  output : String
deriving DecidableEq

/-- Environment in which one testServer invocation runs: what the network and
filesystem do at each fallible step, plus the timestamps the clock yields.
`dialErr` is the ssh.Dial failure (if any), `sessionErr` the NewSession
failure (if any, once the dial succeeded), `exec` the command execution
outcome, and the two log flags say whether opening or writing the audit-log
file fails. -/
structure ProbeEnv where
  dialErr : Option String
  sessionErr : Option String
  exec : ExecOutcome
  logOpenFail : Bool
  logWriteFail : Bool
  nowConn : Nat
  nowSess : Nat
  nowLog : Nat
  nowRet : Nat
deriving DecidableEq

/-- Everything one testServer invocation produces: the returned TestResult,
the audit-log records it durably appended, the diagnostics it printed, and
whether the reachability command was actually executed. -/
structure ProbeRun where
  result : TestResult
  logged : List TestResult
  diags : List String
  ranCommand : Bool
deriving DecidableEq

/-- The total-packet-loss marker tested at src/main.go line 322. -/
def lossMarker : String := "100% packet loss"

/-- Modelled from the golang.org/x/crypto/ssh contract for
Session.CombinedOutput (which calls Session.Run): the returned error is nil
only when the command runs and exits with status zero; a transport failure
yields that failure, and a non-zero exit status yields a non-nil *ExitError. -/
def combinedOutputErr (e : ExecOutcome) : Option String :=
  match e.transportErr with
  | some msg => some msg
  | none =>
    if e.exitStatus = 0 then none
    else some ("Process exited with status " ++ toString e.exitStatus)

/-- Embedding of logResult (src/main.go lines 342-360): open the log file in
create-or-append mode; on open failure print a diagnostic and append nothing;
otherwise attempt to write the formatted record.  A failed WriteString means
the complete record was not durably appended (a partial prefix may remain on
disk, but no complete record), so only a diagnostic is produced; when the
write succeeds exactly the one record is appended.  Returns
(complete records appended, diagnostics printed). -/
def logResult (r : TestResult) (openFail writeFail : Bool) :
    List TestResult × List String :=
  if openFail then ([], ["Error opening log file"])
  else if writeFail then ([], ["Error writing to log file"])
  else ([r], [])

/-- Embedding of testServer (src/main.go lines 271-340): dial the host on
port 22 (15-second timeout); on failure return a "SSH Connection" failure
result without logging.  Then open a session; on failure return a
"Session Creation" failure result without logging.  Otherwise run
`ping -c 3 <targetIP>` via CombinedOutput, classify success as
`err == nil && !strings.Contains(output, "100% packet loss")`, append one
audit-log record, and return the result. -/
def testServer (server : Server) (targetIP : String) (env : ProbeEnv) :
    ProbeRun :=
  match env.dialErr with
  | some e =>
    { result := { server := server.name, target := "SSH Connection",
                  success := false, output := e, timestamp := env.nowConn },
      logged := [], diags := [], ranCommand := false }
  | none =>
    match env.sessionErr with
    | some e =>
      { result := { server := server.name, target := "Session Creation",
                    success := false, output := e, timestamp := env.nowSess },
        logged := [], diags := [], ranCommand := false }
    | none =>
      let output := env.exec.output
      let err := combinedOutputErr env.exec
      let success := err.isNone && !(stringsContains output lossMarker)
      let lg := logResult
        { server := server.name, target := targetIP, success := success,
          output := output, timestamp := env.nowLog }
        env.logOpenFail env.logWriteFail
      { result := { server := server.name, target := targetIP,
                    success := success, output := output,
                    timestamp := env.nowRet },
        logged := lg.1, diags := lg.2, ranCommand := true }

/-- Sample server used by concrete witnesses and counterexamples. -/
def srvA : Server :=
  { name := "alpha", host := "10.0.0.1", user := "root", password := "pw" }

/-- Environment in which the command runs without transport error but exits
with status 1 and prints no loss marker. -/
def envExitOne : ProbeEnv :=
  { dialErr := none, sessionErr := none,
    exec := { transportErr := none, exitStatus := 1, output := "ping: no reply" },
    logOpenFail := false, logWriteFail := false,
    nowConn := 0, nowSess := 0, nowLog := 0, nowRet := 0 }

/-- Environment in which the command succeeds with exit status 0 and partial
packet loss only. -/
def envGood : ProbeEnv :=
  { dialErr := none, sessionErr := none,
    exec := { transportErr := none, exitStatus := 0,
              output := "3 packets transmitted, 3 received, 0% packet loss" },
    logOpenFail := false, logWriteFail := false,
    nowConn := 0, nowSess := 0, nowLog := 1, nowRet := 2 }

/-- Environment in which the ssh dial itself fails. -/
def envDialFail : ProbeEnv :=
  { dialErr := some "dial tcp 10.0.0.1:22: i/o timeout", sessionErr := none,
    exec := { transportErr := none, exitStatus := 0, output := "" },
    logOpenFail := false, logWriteFail := false,
    nowConn := 5, nowSess := 0, nowLog := 0, nowRet := 0 }

/-- C1 counterexample: a probe whose command executes with no transport-level
error, exits with status 1 (CombinedOutput therefore returns a non-nil
*ExitError), and whose output lacks the "100% packet loss" marker, still gets
success=false from the code — so a non-zero exit code alone does force
success=false, refuting the claimed iff. -/
theorem c1_counterexample :
    (testServer srvA "8.8.8.8" envExitOne).result.success = false
    ∧ envExitOne.exec.transportErr = none
    ∧ stringsContains envExitOne.exec.output lossMarker = false := by
  refine ⟨rfl, rfl, by decide⟩

/-- C1 amended: when the connection and session succeed, the result's success
flag is true iff the execution had no transport-level error AND the command
exited with status 0 AND the captured output does not contain the
"100% packet loss" marker; in particular a non-zero exit code alone forces
success=false. -/
theorem c1_amended_success_rule (server : Server) (targetIP : String)
    (env : ProbeEnv) (hd : env.dialErr = none) (hs : env.sessionErr = none) :
    (testServer server targetIP env).result.success = true
      ↔ env.exec.transportErr = none ∧ env.exec.exitStatus = 0
        ∧ stringsContains env.exec.output lossMarker = false := by
  cases htr : env.exec.transportErr with
  | none =>
    by_cases hz : env.exec.exitStatus = 0 <;>
      simp [testServer, hd, hs, combinedOutputErr, htr, hz]
  | some msg =>
    simp [testServer, hd, hs, combinedOutputErr, htr]

/-- C1 witness: concrete successful probe, obtained through the amended rule. -/
theorem c1_amended_witness :
    (testServer srvA "8.8.8.8" envGood).result.success = true :=
  (c1_amended_success_rule srvA "8.8.8.8" envGood rfl rfl).mpr
    ⟨rfl, rfl, by decide⟩

/-- C2 counterexample: a probe invocation whose transport connection fails
returns a connection-failure TestResult but appends no audit-log record at
all — not "exactly one record for every outcome". -/
theorem c2_counterexample :
    (testServer srvA "8.8.8.8" envDialFail).logged = []
    ∧ ¬ (testServer srvA "8.8.8.8" envDialFail).logged.length = 1
    ∧ (testServer srvA "8.8.8.8" envDialFail).result.target = "SSH Connection" := by
  refine ⟨rfl, by decide, rfl⟩

/-- C2 amended: only the executed-command outcome appends an audit record:
connection-failure and session-creation-failure outcomes append none; in the
executed-command outcome exactly one complete record is appended when the
log file opens and the write succeeds, while an open failure or a write
failure leaves no complete record appended and yields a diagnostic instead,
and log failures never change the returned result. -/
theorem c2_amended_logging (server : Server) (targetIP : String)
    (env : ProbeEnv) :
    (env.dialErr ≠ none → (testServer server targetIP env).logged = [])
    ∧ (env.dialErr = none → env.sessionErr ≠ none →
        (testServer server targetIP env).logged = [])
    ∧ (env.dialErr = none → env.sessionErr = none → env.logOpenFail = false →
        env.logWriteFail = false →
        (testServer server targetIP env).logged.length = 1)
    ∧ (env.dialErr = none → env.sessionErr = none → env.logOpenFail = true →
        (testServer server targetIP env).logged = []
          ∧ (testServer server targetIP env).diags ≠ [])
    ∧ (env.dialErr = none → env.sessionErr = none →
        env.logWriteFail = true →
        (testServer server targetIP env).logged = []
          ∧ (testServer server targetIP env).diags ≠ [])
    ∧ (testServer server targetIP env).result =
        (testServer server targetIP
          { env with logOpenFail := false, logWriteFail := false }).result := by
  refine ⟨?_, ?_, ?_, ?_, ?_, ?_⟩
  · intro hd
    cases h : env.dialErr with
    | none => exact absurd h hd
    | some e => simp [testServer, h]
  · intro hd hs
    cases h : env.sessionErr with
    | none => exact absurd h hs
    | some e => simp [testServer, hd, h]
  · intro hd hs ho hw
    simp [testServer, hd, hs, logResult, ho, hw]
  · intro hd hs ho
    simp [testServer, hd, hs, logResult, ho]
  · intro hd hs hw
    by_cases ho : env.logOpenFail = true <;>
      simp [testServer, hd, hs, logResult, ho, hw]
  · cases hd : env.dialErr with
    | some e => simp [testServer, hd]
    | none =>
      cases hs : env.sessionErr with
      | some e => simp [testServer, hd, hs]
      | none => simp [testServer, hd, hs]

/-- Environment whose probe executes the command but cannot open the log. -/
def envLogFail : ProbeEnv :=
  { dialErr := none, sessionErr := none,
    exec := { transportErr := none, exitStatus := 0, output := "ok" },
    logOpenFail := true, logWriteFail := false,
    nowConn := 0, nowSess := 0, nowLog := 3, nowRet := 4 }

/-- C2 witness: concrete probe with a failing log open appends no record,
prints a diagnostic. -/
theorem c2_amended_witness :
    (testServer srvA "1.1.1.1" envLogFail).logged = []
    ∧ (testServer srvA "1.1.1.1" envLogFail).diags ≠ [] :=
  (c2_amended_logging srvA "1.1.1.1" envLogFail).2.2.2.1 rfl rfl rfl

/-- C7 counterexample: on a transport-connection failure the returned
TestResult's target label is the literal "SSH Connection", not "connection"
as the claim states. -/
theorem c7_counterexample :
    (testServer srvA "8.8.8.8" envDialFail).result.target = "SSH Connection"
    ∧ (testServer srvA "8.8.8.8" envDialFail).result.target ≠ "connection" := by
  refine ⟨rfl, by decide⟩

/-- C7 amended: for every probe whose transport connection or authentication
fails, the returned TestResult has success=false, target label
"SSH Connection", and output equal to the transport/authentication error
text; the probe terminates at that step without executing the reachability
command and without logging. -/
theorem c7_connection_failure (server : Server) (targetIP : String)
    (env : ProbeEnv) (e : String) (hd : env.dialErr = some e) :
    (testServer server targetIP env).result.success = false
    ∧ (testServer server targetIP env).result.target = "SSH Connection"
    ∧ (testServer server targetIP env).result.output = e
    ∧ (testServer server targetIP env).ranCommand = false
    ∧ (testServer server targetIP env).logged = [] := by
  simp [testServer, hd]

/-- C7 witness: the amended statement at a concrete failing dial. -/
theorem c7_connection_failure_witness :
    (testServer srvA "8.8.8.8" envDialFail).result.success = false
    ∧ (testServer srvA "8.8.8.8" envDialFail).result.target = "SSH Connection"
    ∧ (testServer srvA "8.8.8.8" envDialFail).result.output
        = "dial tcp 10.0.0.1:22: i/o timeout"
    ∧ (testServer srvA "8.8.8.8" envDialFail).ranCommand = false
    ∧ (testServer srvA "8.8.8.8" envDialFail).logged = [] :=
  c7_connection_failure srvA "8.8.8.8" envDialFail
    "dial tcp 10.0.0.1:22: i/o timeout" rfl

/-- Result channel handle: generation number identifies the allocation (a
fresh make(chan) gets a fresh generation), with its capacity and closed flag
(src/main.go lines 91, 122, 137). -/
structure Chan where
  gen : Nat
  capacity : Nat
  closed : Bool
deriving DecidableEq

/-- The bubbletea view model (src/main.go lines 39-50).  The spinner is
abstracted as a frame counter, the table as its rows, the text input as its
string value plus the CharLimit set at initialisation; `errMsg` models the
`err` field. -/
structure Model where
  servers : List Server
  results : List TestResult
  spinner : Nat
  tableRows : List (List String)
  testing : Bool
  errMsg : Option String
  resultChan : Chan
  textValue : String
  charLimit : Nat
  inputting : Bool
  targetIP : String
deriving DecidableEq

/-- Embedding of initialModel (src/main.go lines 56-96) for a given parsed
server list: empty results, a capacity-10 channel, a fresh text input with
CharLimit 15, not inputting. -/
def initialModel (servers : List Server) : Model :=
  { servers := servers, results := [], spinner := 0, tableRows := [],
    testing := false, errMsg := none,
    resultChan := { gen := 0, capacity := 10, closed := false },
    textValue := "", charLimit := 15, inputting := false, targetIP := "" }

/-- Key events as Model.Update distinguishes them by msg.String(). -/
inductive Key where
  | ctrlC
  | q
  | t
  | enter
  | esc
  | backspace
  | char (c : Char)
  | other
deriving DecidableEq

/-- Messages consumed by Model.Update: key input, a TestResult arriving from
the stream, or a spinner tick. -/
inductive Msg where
  | key (k : Key)
  | result (r : TestResult)
  | tick
deriving DecidableEq

/-- Commands returned by Model.Update: quit, the text-input blink, the
runTests command bound to a channel generation, the
Batch(spinner.Tick, CheckMoreResults(chan)) re-arm bound to a channel
generation, the spinner's own tick command, the text input's command, or
nil. -/
inductive Cmd where
  | nil
  | quit
  | blink
  | run (gen : Nat)
  | batchTickCheck (gen : Nat)
  | spin
  | inputCmd
deriving DecidableEq

/-- Drop the last character of a string (text-input backspace). -/
def dropLastChar (v : String) : String := ⟨v.data.dropLast⟩

/-- Modelled from the bubbles textinput contract: printable keys insert a
character only while the value is shorter than CharLimit (which caps the
accepted characters at 15 here), backspace deletes the last character, and
all other messages leave the value unchanged. -/
def textInputUpdate (v : String) (limit : Nat) : Msg → String
  | Msg.key (Key.char c) => if v.length < limit then v.push c else v
  | Msg.key Key.t => if v.length < limit then v.push 't' else v
  | Msg.key Key.backspace => dropLastChar v
  | _ => v

/-- Code reached when a switch case of Model.Update does not return early
(src/main.go lines 184-190): while inputting, the message is forwarded to
the text input; otherwise nothing happens. -/
def fallThru (m : Model) (msg : Msg) : Model × Cmd :=
  if m.inputting = true then
    ({ m with textValue := textInputUpdate m.textValue m.charLimit msg },
     Cmd.inputCmd)
  else (m, Cmd.nil)

/-- One rendered table row for a result (src/main.go lines 152-163):
server, target, status glyph, formatted timestamp. -/
def formatRFC822 (t : Nat) : String := toString t

/-- Table row built for one result in the TestResult case of Update. -/
def resultRow (r : TestResult) : List String :=
  [r.server, r.target, if r.success then "✅" else "❌",
   formatRFC822 r.timestamp]

/-- Embedding of Model.Update (src/main.go lines 117-191).  Quit keys close
the result channel and quit; 't' opens the destination input when idle;
enter with a non-empty value starts a run: it stores the destination, resets
the results, allocates a fresh channel of capacity len(servers), and issues
the runTests command; esc cancels input.  A TestResult is appended and the
rows rebuilt, then consumption is re-armed while more results are expected,
and testing is cleared once the collected count equals the server count.  A
spinner tick only advances the spinner.  Any message not returned early is
forwarded to the text input while inputting. -/
def update (m : Model) (msg : Msg) : Model × Cmd :=
  match msg with
  | Msg.key Key.ctrlC =>
    ({ m with resultChan := { m.resultChan with closed := true } }, Cmd.quit)
  | Msg.key Key.q =>
    ({ m with resultChan := { m.resultChan with closed := true } }, Cmd.quit)
  | Msg.key Key.t =>
    if m.testing = false ∧ m.inputting = false then
      ({ m with inputting := true }, Cmd.blink)
    else fallThru m (Msg.key Key.t)
  | Msg.key Key.enter =>
    if m.inputting = true ∧ m.textValue ≠ "" then
      ({ m with targetIP := m.textValue, inputting := false, testing := true,
                results := [],
                resultChan := { gen := m.resultChan.gen + 1,
                                capacity := m.servers.length,
                                closed := false } },
       Cmd.run (m.resultChan.gen + 1))
    else fallThru m (Msg.key Key.enter)
  | Msg.key Key.esc =>
    if m.inputting = true then ({ m with inputting := false }, Cmd.nil)
    else fallThru m (Msg.key Key.esc)
  | Msg.key k => fallThru m (Msg.key k)
  | Msg.result r =>
    let results := m.results ++ [r]
    let m1 : Model :=
      { m with results := results, tableRows := results.map resultRow }
    if m1.testing = true ∧ results.length < m1.servers.length then
      (m1, Cmd.batchTickCheck m1.resultChan.gen)
    else
      let m2 : Model :=
        if results.length = m1.servers.length then { m1 with testing := false }
        else m1
      fallThru m2 (Msg.result r)
  | Msg.tick => ({ m with spinner := m.spinner + 1 }, Cmd.spin)

/-- Spinner frame render (external bubbles widget; exact glyph out of
scope). -/
def spinnerView (n : Nat) : String := "⠋" ++ toString n

/-- Text input render (external bubbles widget; cursor omitted). -/
def textInputView (v : String) : String := v

/-- Table render (external bubbles widget; layout out of scope, rows joined
for definiteness). -/
def tableView (rows : List (List String)) : String :=
  String.intercalate "\n" (rows.map (String.intercalate " | "))

/-- lipgloss border render (external widget; modelled as identity, the border
is purely visual). -/
def styleRender (s : String) : String := s

/-- Count of successful results (src/main.go lines 219-224). -/
def countSuccess (rs : List TestResult) : Nat :=
  (rs.filter (fun r => r.success)).length

/-- Embedding of Model.View (src/main.go lines 193-230): error short-circuit;
header; then the input prompt while inputting, else the spinner while
testing, else the completion banner when results exist, else the idle hint;
then the bordered table; then, when results exist and testing is over, the
"Summary: P/N tests passed" line where N is len(m.results). -/
def view (m : Model) : String :=
  match m.errMsg with
  | some e => "Error: " ++ e ++ "\n"
  | none =>
    let header := "\n  🌐 Network Connectivity Tester\n\n"
    let body :=
      if m.inputting = true then
        "Enter target IP for ping tests:\n" ++ textInputView m.textValue
          ++ "\n" ++ "\n(Press Enter to start, Esc to cancel)\n"
      else if m.testing = true then
        "Target IP: " ++ m.targetIP ++ "\n" ++ spinnerView m.spinner
          ++ " Running tests...\n\n"
      else if 0 < m.results.length then
        "Target IP: " ++ m.targetIP ++ "\n" ++ "✨ Tests complete!\n"
          ++ "Press 't' to run tests again, or 'q' to quit\n\n"
      else
        "Press 't' to start tests, 'q' to quit\n\n"
    let tablePart := styleRender (tableView m.tableRows) ++ "\n"
    let summary :=
      if 0 < m.results.length ∧ m.testing = false then
        "\nSummary: " ++ toString (countSuccess m.results) ++ "/"
          ++ toString m.results.length ++ " tests passed\n"
      else ""
    header ++ body ++ tablePart ++ summary

/-- Aggregator mode as Model.View's branch structure renders it
(src/main.go lines 201-214): destination entry, running, complete (results
shown with testing over), or idle. -/
inductive Mode where
  | idle
  | awaitingDestination
  | running
  | complete
deriving DecidableEq

/-- The mode a model is in, read off the same conditions View branches on. -/
def mode (m : Model) : Mode :=
  if m.inputting = true then Mode.awaitingDestination
  else if m.testing = true then Mode.running
  else if 0 < m.results.length then Mode.complete
  else Mode.idle

/-- The results the probe goroutines spawned by runTests (src/main.go lines
236-243) will send into the channel: one testServer call per server, each in
its own environment. -/
def runTestsSent (servers : List Server) (targetIP : String)
    (envs : List ProbeEnv) : List TestResult :=
  (servers.zip envs).map (fun p => (testServer p.1 targetIP p.2).result)

/-- Embedding of the body of the command returned by runTests (src/main.go
lines 250-253): after spawning the probes it performs one blocking receive
on the result channel and returns the received result as the message
(`nil` only when the channel was closed).  `arrivals` is the order in which
probe results become available on the channel. -/
def runTestsCmdMsg (arrivals : List TestResult) : Option TestResult :=
  arrivals.head?

/-- Embedding of the command returned by CheckMoreResults (src/main.go lines
258-265): one blocking receive, same shape as the runTests receive. -/
def checkMoreResultsCmdMsg (arrivals : List TestResult) : Option TestResult :=
  arrivals.head?

/-- Two distinct results for counterexamples about arrival dependence. -/
def resA : TestResult :=
  { server := "alpha", target := "8.8.8.8", success := true,
    output := "ok", timestamp := 10 }

/-- Second sample result, distinct from resA. -/
def resB : TestResult :=
  { server := "beta", target := "8.8.8.8", success := false,
    output := "100% packet loss", timestamp := 11 }

/-- C3 counterexample: the message returned by the runTests command is the
first result received from the stream, so it changes with the probes'
arrivals — the command does not return until a probe completes (with no
arrival it stays blocked / yields nothing), refuting "returns immediately
without waiting for any probe to complete". -/
theorem c3_counterexample :
    runTestsCmdMsg [resA] ≠ runTestsCmdMsg [resB]
    ∧ runTestsCmdMsg [] = none := by
  refine ⟨by decide, rfl⟩

/-- C3 amended: runTests launches exactly one probe task per host bound to
the stream, but its command then performs a blocking receive: it returns the
first arriving probe result as its message, and therefore waits for the
first probe to complete (yielding nothing only if the stream is closed
empty). -/
theorem c3_amended_launch (servers : List Server) (targetIP : String)
    (envs : List ProbeEnv) (he : envs.length = servers.length) :
    (runTestsSent servers targetIP envs).length = servers.length
    ∧ (∀ r rest, runTestsCmdMsg (r :: rest) = some r)
    ∧ runTestsCmdMsg [] = none := by
  refine ⟨?_, fun r rest => rfl, rfl⟩
  simp [runTestsSent, List.length_zip, he]

/-- C3 witness: concrete two-host launch, via the amended statement. -/
theorem c3_amended_witness :
    (runTestsSent [srvA, srvA] "8.8.8.8" [envGood, envDialFail]).length = 2
    ∧ runTestsCmdMsg [resA] = some resA :=
  ⟨(c3_amended_launch [srvA, srvA] "8.8.8.8" [envGood, envDialFail] rfl).1,
   (c3_amended_launch [srvA, srvA] "8.8.8.8" [envGood, envDialFail] rfl).2.1
     resA []⟩

/-- C9: processing a spinner tick only advances the spinner: the results,
testing flag, table rows, inputting flag, text value, destination, channel,
server list and error field are all unchanged, so a tick is never counted as
a result. -/
theorem c9_tick_frame (m : Model) :
    (update m Msg.tick).1.results = m.results
    ∧ (update m Msg.tick).1.testing = m.testing
    ∧ (update m Msg.tick).1.tableRows = m.tableRows
    ∧ (update m Msg.tick).1.inputting = m.inputting
    ∧ (update m Msg.tick).1.textValue = m.textValue
    ∧ (update m Msg.tick).1.targetIP = m.targetIP
    ∧ (update m Msg.tick).1.resultChan = m.resultChan
    ∧ (update m Msg.tick).1.servers = m.servers
    ∧ (update m Msg.tick).1.errMsg = m.errMsg
    ∧ (update m Msg.tick).1.spinner = m.spinner + 1 := by
  refine ⟨rfl, rfl, rfl, rfl, rfl, rfl, rfl, rfl, rfl, rfl⟩

/-- Strings append componentwise on their character data. -/
theorem strDataAppend (a b : String) : (a ++ b).data = a.data ++ b.data := by
  cases a
  cases b
  rfl

/-- A string contains another as a contiguous substring. -/
def StrContains (s pat : String) : Prop :=
  ∃ a b : List Char, s.data = a ++ (pat.data ++ b)

/-- C8: once testing is over with a positive number of collected results
equal to the vantage-host count N, of which P succeeded, the rendered view
contains the summary line "P/N tests passed". -/
theorem c8_summary_line (m : Model) (he : m.errMsg = none)
    (ht : m.testing = false) (hn : m.results.length = m.servers.length)
    (hp : 0 < m.results.length) :
    StrContains (view m)
      (toString (countSuccess m.results) ++ "/"
        ++ toString m.servers.length ++ " tests passed") := by
  refine ⟨("\n  🌐 Network Connectivity Tester\n\n"
      ++ (if m.inputting = true then
            "Enter target IP for ping tests:\n" ++ textInputView m.textValue
              ++ "\n" ++ "\n(Press Enter to start, Esc to cancel)\n"
          else
            "Target IP: " ++ m.targetIP ++ "\n" ++ "✨ Tests complete!\n"
              ++ "Press 't' to run tests again, or 'q' to quit\n\n")
      ++ (styleRender (tableView m.tableRows) ++ "\n")
      ++ "\nSummary: ").data, "\n".data, ?_⟩
  have hp2 : 0 < m.servers.length := hn ▸ hp
  by_cases hi : m.inputting = true <;>
    simp [view, he, ht, hi, hp, hp2, hn, strDataAppend, List.append_assoc]

/-- Concrete completed model for the C8 witness: two results, one passed. -/
def mDone : Model :=
  { servers := [srvA, srvA], results := [resA, resB], spinner := 3,
    tableRows := [resultRow resA, resultRow resB], testing := false,
    errMsg := none,
    resultChan := { gen := 1, capacity := 2, closed := false },
    textValue := "8.8.8.8", charLimit := 15, inputting := false,
    targetIP := "8.8.8.8" }

/-- C8 witness: the summary substring for the concrete completed model. -/
theorem c8_summary_line_witness :
    StrContains (view mDone) (toString (countSuccess mDone.results) ++ "/"
      ++ toString mDone.servers.length ++ " tests passed") :=
  c8_summary_line mDone rfl rfl rfl (by decide)

/-- A whole-run system state: the view model, the generation of the channel
on which a receive command (the runTests receive or CheckMoreResults) is
outstanding (if any), the number of probe results the current run's producer
goroutines will still make available on the channel, and whether the program
has quit. -/
structure Sys where
  m : Model
  pending : Option Nat
  remaining : Nat
  quitted : Bool
deriving DecidableEq

/-- Events driving a run: a key press, a spinner tick, or the completion of
an outstanding channel receive delivering a probe result. -/
inductive Ev where
  | key (k : Key)
  | tick
  | deliver (r : TestResult)
deriving DecidableEq

/-- Initial system state: the freshly initialised model, no outstanding
receive, no live producers. -/
def initSys (servers : List Server) : Sys :=
  { m := initialModel servers, pending := none, remaining := 0,
    quitted := false }

/-- One step of the running program.  After quitting nothing happens.  A key
message goes through Update: Quit terminates, the runTests command spawns
len(servers) producers and performs the command's blocking receive (one
outstanding receive on the fresh channel), other commands leave the
receive/producer bookkeeping alone.  A tick goes through Update.  A delivery
completes the outstanding receive (it requires one, and a producer result
still to hand over), feeds the result through Update, and leaves a new
outstanding receive exactly when Update re-armed via CheckMoreResults. -/
def step (s : Sys) (e : Ev) : Sys :=
  if s.quitted = true then s
  else
    match e with
    | Ev.key k =>
      match update s.m (Msg.key k) with
      | (m', Cmd.quit) => { s with m := m', quitted := true }
      | (m', Cmd.run g) =>
        { m := m', pending := some g, remaining := m'.servers.length,
          quitted := false }
      | (m', _) => { s with m := m' }
    | Ev.tick => { s with m := (update s.m Msg.tick).1 }
    | Ev.deliver r =>
      match s.pending with
      | none => s
      | some _ =>
        if s.remaining = 0 then s
        else
          match update s.m (Msg.result r) with
          | (m', Cmd.batchTickCheck g2) =>
            { m := m', pending := some g2, remaining := s.remaining - 1,
              quitted := false }
          | (m', _) =>
            { m := m', pending := none, remaining := s.remaining - 1,
              quitted := false }

/-- States of the program reachable from startup with a given registry. -/
inductive Reachable (servers : List Server) : Sys → Prop where
  | init : Reachable servers (initSys servers)
  | next : ∀ (s : Sys) (e : Ev), Reachable servers s →
      Reachable servers (step s e)

/-- Pushing a character onto a string grows its length by one. -/
theorem strLengthPush (v : String) (c : Char) :
    (v.push c).length = v.length + 1 := by
  cases v
  simp [String.push, String.length]

/-- Dropping the last character never grows a string. -/
theorem strLengthDropLast (v : String) :
    (dropLastChar v).length ≤ v.length := by
  cases v
  simp [dropLastChar, String.length]

/-- A non-empty string has positive length. -/
theorem strPosOfNe (v : String) (h : v ≠ "") : 1 ≤ v.length := by
  cases v with
  | mk data =>
    cases data with
    | nil => exact absurd rfl h
    | cons a l => simp [String.length]

/-- Run invariant tying the model, the outstanding receive and the live
producers together: the registry and the char limit are fixed; at most N
results are ever collected; while testing the collected and still-live
counts add up to N, the input is closed, the channel has capacity N, and
(when N is positive) the run is not yet full; when not testing no producer
is live and the collected count is 0 or N; an outstanding receive always
points at the current channel generation and only exists while testing; the
text value respects the char limit; the destination is empty or between 1
and 15 characters. -/
def Inv (servers : List Server) (s : Sys) : Prop :=
  s.m.servers = servers
  ∧ s.m.charLimit = 15
  ∧ s.m.results.length ≤ servers.length
  ∧ (s.m.testing = true →
      s.m.results.length + s.remaining = servers.length
      ∧ s.m.inputting = false
      ∧ s.m.resultChan.capacity = servers.length
      ∧ (servers.length = 0 ∨ s.m.results.length < servers.length))
  ∧ (s.m.testing = false →
      s.remaining = 0
      ∧ (s.m.results.length = 0 ∨ s.m.results.length = servers.length))
  ∧ (∀ g, s.pending = some g → g = s.m.resultChan.gen ∧ s.m.testing = true)
  ∧ s.m.textValue.length ≤ 15
  ∧ (s.m.targetIP = "" ∨ (1 ≤ s.m.targetIP.length ∧ s.m.targetIP.length ≤ 15))

/-- The initial state satisfies the invariant. -/
theorem inv_init (servers : List Server) : Inv servers (initSys servers) := by
  simp [Inv, initSys, initialModel, String.length]

/-- The invariant is preserved by every step. -/
theorem inv_step (servers : List Server) (s : Sys) (e : Ev)
    (h : Inv servers s) : Inv servers (step s e) := by
  obtain ⟨hsrv, hlim, hlen, htest, hidle, hpend, htext, htgt⟩ := h
  by_cases hq : s.quitted = true
  · have hstep : step s e = s := by simp [step, hq]
    rw [hstep]
    exact ⟨hsrv, hlim, hlen, htest, hidle, hpend, htext, htgt⟩
  · simp only [Bool.not_eq_true] at hq
    cases e with
    | tick =>
      have hstep : step s Ev.tick
          = { s with m := { s.m with spinner := s.m.spinner + 1 } } := by
        simp [step, hq, update]
      rw [hstep]
      exact ⟨hsrv, hlim, hlen, htest, hidle, hpend, htext, htgt⟩
    | key k =>
      cases k with
      | ctrlC =>
        have hstep : step s (Ev.key Key.ctrlC)
            = { s with
                m := { s.m with resultChan := { s.m.resultChan with closed := true } },
                quitted := true } := by
          simp [step, hq, update]
        rw [hstep]
        exact ⟨hsrv, hlim, hlen, htest, hidle, hpend, htext, htgt⟩
      | q =>
        have hstep : step s (Ev.key Key.q)
            = { s with
                m := { s.m with resultChan := { s.m.resultChan with closed := true } },
                quitted := true } := by
          simp [step, hq, update]
        rw [hstep]
        exact ⟨hsrv, hlim, hlen, htest, hidle, hpend, htext, htgt⟩
      | t =>
        by_cases hc : s.m.testing = false ∧ s.m.inputting = false
        · have hstep : step s (Ev.key Key.t)
              = { s with m := { s.m with inputting := true } } := by
            simp [step, hq, update, hc]
          rw [hstep]
          exact ⟨hsrv, hlim, hlen,
            fun ht => absurd ht (by simp [hc.1]), hidle, hpend, htext, htgt⟩
        · by_cases hin : s.m.inputting = true
          · have hstep : step s (Ev.key Key.t)
                = { s with m := { s.m with textValue :=
                      if s.m.textValue.length < s.m.charLimit
                      then s.m.textValue.push 't' else s.m.textValue } } := by
              simp [step, hq, update, hc, fallThru, hin, textInputUpdate]
            rw [hstep]
            refine ⟨hsrv, hlim, hlen, htest, hidle, hpend, ?_, htgt⟩
            by_cases hl : s.m.textValue.length < s.m.charLimit
            · rw [hlim] at hl
              simp [hl, hlim, strLengthPush]
              omega
            · rw [hlim] at hl
              simp [hl, hlim]
              exact htext
          · have htt : s.m.testing = true := by
              cases htb : s.m.testing with
              | false => exact absurd ⟨htb, by simpa using hin⟩ hc
              | true => rfl
            have hstep : step s (Ev.key Key.t)
                = { s with quitted := false } := by
              simp [step, hq, update, hc, fallThru, hin, htt]
            rw [hstep]
            exact ⟨hsrv, hlim, hlen, htest, hidle, hpend, htext, htgt⟩
      | enter =>
        by_cases hc : s.m.inputting = true ∧ s.m.textValue ≠ ""
        · have hstep : step s (Ev.key Key.enter)
              = { m :=
                    { s.m with
                      targetIP := s.m.textValue,
                      inputting := false,
                      testing := true,
                      results := [],
                      resultChan :=
                        { gen := s.m.resultChan.gen + 1,
                          capacity := s.m.servers.length,
                          closed := false } },
                  pending := some (s.m.resultChan.gen + 1),
                  remaining := s.m.servers.length,
                  quitted := false } := by
            simp [step, hq, update, hc]
          rw [hstep]
          refine ⟨hsrv, hlim, Nat.zero_le _, ?_, ?_, ?_, htext, ?_⟩
          · intro _
            refine ⟨by simp [hsrv], rfl, by rw [hsrv], ?_⟩
            rcases Nat.eq_zero_or_pos servers.length with h0 | hp
            · exact Or.inl h0
            · exact Or.inr (by simpa using hp)
          · intro hf
            exact Bool.noConfusion hf
          · intro g hg
            exact ⟨(Option.some.inj hg).symm, rfl⟩
          · exact Or.inr ⟨strPosOfNe _ hc.2, htext⟩
        · by_cases hin : s.m.inputting = true
          · have hv : s.m.textValue = "" := by
              by_cases hv0 : s.m.textValue = ""
              · exact hv0
              · exact absurd ⟨hin, hv0⟩ hc
            have hstep : step s (Ev.key Key.enter)
                = { s with
                    m := { s.m with textValue := s.m.textValue },
                    quitted := false } := by
              simp [step, hq, update, hv, fallThru, hin, textInputUpdate]
            rw [hstep]
            exact ⟨hsrv, hlim, hlen, htest, hidle, hpend, htext, htgt⟩
          · have hstep : step s (Ev.key Key.enter)
                = { s with quitted := false } := by
              simp [step, hq, update, hc, fallThru, hin]
            rw [hstep]
            exact ⟨hsrv, hlim, hlen, htest, hidle, hpend, htext, htgt⟩
      | esc =>
        by_cases hin : s.m.inputting = true
        · have hstep : step s (Ev.key Key.esc)
              = { s with m := { s.m with inputting := false } } := by
            simp [step, hq, update, hin]
          rw [hstep]
          exact ⟨hsrv, hlim, hlen,
            fun ht => ⟨(htest ht).1, rfl, (htest ht).2.2.1, (htest ht).2.2.2⟩,
            hidle, fun g hg => hpend g hg, htext, htgt⟩
        · have hstep : step s (Ev.key Key.esc)
              = { s with quitted := false } := by
            simp [step, hq, update, fallThru, hin]
          rw [hstep]
          exact ⟨hsrv, hlim, hlen, htest, hidle, hpend, htext, htgt⟩
      | backspace =>
        by_cases hin : s.m.inputting = true
        · have hstep : step s (Ev.key Key.backspace)
              = { s with
                  m := { s.m with textValue := dropLastChar s.m.textValue },
                  quitted := false } := by
            simp [step, hq, update, fallThru, hin, textInputUpdate]
          rw [hstep]
          exact ⟨hsrv, hlim, hlen, htest, hidle, hpend,
            le_trans (strLengthDropLast _) htext, htgt⟩
        · have hstep : step s (Ev.key Key.backspace)
              = { s with quitted := false } := by
            simp [step, hq, update, fallThru, hin]
          rw [hstep]
          exact ⟨hsrv, hlim, hlen, htest, hidle, hpend, htext, htgt⟩
      | char c =>
        by_cases hin : s.m.inputting = true
        · have hstep : step s (Ev.key (Key.char c))
              = { s with m := { s.m with textValue :=
                    if s.m.textValue.length < s.m.charLimit
                    then s.m.textValue.push c else s.m.textValue } } := by
            simp [step, hq, update, fallThru, hin, textInputUpdate]
          rw [hstep]
          refine ⟨hsrv, hlim, hlen, htest, hidle, hpend, ?_, htgt⟩
          by_cases hl : s.m.textValue.length < s.m.charLimit
          · rw [hlim] at hl
            simp [hl, hlim, strLengthPush]
            omega
          · rw [hlim] at hl
            simp [hl, hlim]
            exact htext
        · have hstep : step s (Ev.key (Key.char c))
              = { s with quitted := false } := by
            simp [step, hq, update, fallThru, hin]
          rw [hstep]
          exact ⟨hsrv, hlim, hlen, htest, hidle, hpend, htext, htgt⟩
      | other =>
        by_cases hin : s.m.inputting = true
        · have hstep : step s (Ev.key Key.other)
              = { s with
                  m := { s.m with textValue := s.m.textValue },
                  quitted := false } := by
            simp [step, hq, update, fallThru, hin, textInputUpdate]
          rw [hstep]
          exact ⟨hsrv, hlim, hlen, htest, hidle, hpend, htext, htgt⟩
        · have hstep : step s (Ev.key Key.other)
              = { s with quitted := false } := by
            simp [step, hq, update, fallThru, hin]
          rw [hstep]
          exact ⟨hsrv, hlim, hlen, htest, hidle, hpend, htext, htgt⟩
    | deliver r =>
      cases hp : s.pending with
      | none =>
        have hstep : step s (Ev.deliver r) = s := by simp [step, hq, hp]
        rw [hstep]
        exact ⟨hsrv, hlim, hlen, htest, hidle, hpend, htext, htgt⟩
      | some g =>
        by_cases hr : s.remaining = 0
        · have hstep : step s (Ev.deliver r) = s := by
            simp [step, hq, hp, hr]
          rw [hstep]
          exact ⟨hsrv, hlim, hlen, htest, hidle, hpend, htext, htgt⟩
        · have ht : s.m.testing = true := (hpend g hp).2
          have h4 := htest ht
          have hNlt : s.m.results.length < servers.length := by
            rcases h4.2.2.2 with h0 | hlt
            · omega
            · exact hlt
          by_cases hfull : s.m.results.length + 1 < servers.length
          · have hstep : step s (Ev.deliver r)
                = { m :=
                      { s.m with
                        results := s.m.results ++ [r],
                        tableRows := (s.m.results ++ [r]).map resultRow },
                    pending := some s.m.resultChan.gen,
                    remaining := s.remaining - 1,
                    quitted := false } := by
              simp [step, hq, hp, hr, update, ht, hsrv, hfull]
            rw [hstep]
            refine ⟨hsrv, hlim, ?_, ?_, ?_, ?_, htext, htgt⟩
            · simp
              omega
            · intro _
              refine ⟨?_, h4.2.1, h4.2.2.1, Or.inr ?_⟩
              · simp
                omega
              · simp
                omega
            · intro hf
              have hf' : s.m.testing = false := hf
              rw [hf'] at ht
              exact Bool.noConfusion ht
            · intro g' hg'
              exact ⟨(Option.some.inj hg').symm, ht⟩
          · have hdone : s.m.results.length + 1 = servers.length := by omega
            have hstep : step s (Ev.deliver r)
                = { m :=
                      { s.m with
                        results := s.m.results ++ [r],
                        tableRows := (s.m.results ++ [r]).map resultRow,
                        testing := false },
                    pending := none,
                    remaining := s.remaining - 1,
                    quitted := false } := by
              simp [step, hq, hp, hr, update, ht, hsrv, hfull, hdone,
                    fallThru, h4.2.1]
            rw [hstep]
            refine ⟨hsrv, hlim, ?_, ?_, ?_, ?_, htext, htgt⟩
            · simp
              omega
            · intro hf
              exact Bool.noConfusion hf
            · intro _
              refine ⟨?_, Or.inr ?_⟩
              · show s.remaining - 1 = 0
                omega
              · simp
                omega
            · intro g' hg'
              exact Option.noConfusion hg'

/-- Every reachable state satisfies the invariant. -/
theorem inv_reachable (servers : List Server) (s : Sys)
    (h : Reachable servers s) : Inv servers s := by
  induction h with
  | init => exact inv_init servers
  | next s' e _ ih => exact inv_step servers s' e ih

/-- State after pressing 't' and typing '8' with a one-host registry. -/
def sInput : Sys :=
  step (step (initSys [srvA]) (Ev.key Key.t)) (Ev.key (Key.char '8'))

/-- State after confirming the destination: a run over one host is live. -/
def sRun : Sys := step sInput (Ev.key Key.enter)

/-- State after pressing 'q' mid-run. -/
def sQuit : Sys := step sRun (Ev.key Key.q)

/-- State after the single probe result arrives: the run is complete. -/
def sDone : Sys := step sRun (Ev.deliver resA)

/-- State after starting a run over an empty registry. -/
def sEmptyRun : Sys :=
  step (step (step (initSys []) (Ev.key Key.t)) (Ev.key (Key.char '8')))
    (Ev.key Key.enter)

/-- The typed-in state is reachable. -/
theorem reach_sInput : Reachable [srvA] sInput :=
  Reachable.next _ _ (Reachable.next _ _ Reachable.init)

/-- The mid-run state is reachable. -/
theorem reach_sRun : Reachable [srvA] sRun :=
  Reachable.next _ _ reach_sInput

/-- The completed-run state is reachable. -/
theorem reach_sDone : Reachable [srvA] sDone :=
  Reachable.next _ _ reach_sRun

/-- C4 counterexample: pressing 'q' during a live run closes the result
channel while a producer is still live (remaining = 1 probe has not handed
over its result yet), refuting "never closed while any producer may still be
live". -/
theorem c4_counterexample :
    Reachable [srvA] sQuit
    ∧ sQuit.m.resultChan.closed = true
    ∧ 0 < sQuit.remaining :=
  ⟨Reachable.next _ _ reach_sRun, by decide, by decide⟩

/-- C4 amended: producers never close the stream and the consumer detects
completion solely by comparing the collected count to the expected count —
the stream's closed flag is set only by the quit keys, processing a result
is entirely independent of the closed flag, and the testing flag is cleared
exactly when the collected count reaches the server count; however the quit
action does close the stream even while producers may still be live. -/
theorem c4_amended_stream (s : Sys) (e : Ev) (m : Model) (b : Bool)
    (r : TestResult) :
    ((step s e).m.resultChan.closed = true →
      s.m.resultChan.closed = true ∨ e = Ev.key Key.q ∨ e = Ev.key Key.ctrlC)
    ∧ (update { m with resultChan := { m.resultChan with closed := b } }
        (Msg.result r)).1
        = { (update m (Msg.result r)).1 with
            resultChan :=
              { (update m (Msg.result r)).1.resultChan with closed := b } }
    ∧ (update m (Msg.result r)).1.testing
        = (if m.results.length + 1 = m.servers.length then false
           else m.testing) := by
  refine ⟨?_, ?_, ?_⟩
  · intro hcl
    by_cases hq : s.quitted = true
    · exact Or.inl (by simpa [step, hq] using hcl)
    · cases e with
      | tick => exact Or.inl (by simpa [step, hq, update] using hcl)
      | deliver r0 =>
        cases hp : s.pending with
        | none => exact Or.inl (by simpa [step, hq, hp] using hcl)
        | some g =>
          by_cases hr : s.remaining = 0
          · exact Or.inl (by simpa [step, hq, hp, hr] using hcl)
          · by_cases h1 : s.m.testing = true
              ∧ s.m.results.length + 1 < s.m.servers.length
            · exact Or.inl
                (by simpa [step, hq, hp, hr, update, h1] using hcl)
            · by_cases h2 : s.m.results.length + 1 = s.m.servers.length
              · by_cases hin : s.m.inputting = true
                · exact Or.inl (by simpa [step, hq, hp, hr, update, h1, h2,
                    fallThru, hin, textInputUpdate] using hcl)
                · exact Or.inl (by simpa [step, hq, hp, hr, update, h1, h2,
                    fallThru, hin] using hcl)
              · by_cases hin : s.m.inputting = true
                · exact Or.inl (by simpa [step, hq, hp, hr, update, h1, h2,
                    fallThru, hin, textInputUpdate] using hcl)
                · exact Or.inl (by simpa [step, hq, hp, hr, update, h1, h2,
                    fallThru, hin] using hcl)
      | key k =>
        cases k with
        | q => exact Or.inr (Or.inl rfl)
        | ctrlC => exact Or.inr (Or.inr rfl)
        | t =>
          left
          by_cases hc : s.m.testing = false ∧ s.m.inputting = false
          · simpa [step, hq, update, hc] using hcl
          · by_cases hin : s.m.inputting = true
            · simpa [step, hq, update, hc, fallThru, hin, textInputUpdate]
                using hcl
            · have htt : s.m.testing = true := by
                cases htb : s.m.testing with
                | false => exact absurd ⟨htb, by simpa using hin⟩ hc
                | true => rfl
              simpa [step, hq, update, hc, fallThru, hin, htt] using hcl
        | enter =>
          by_cases hc : s.m.inputting = true ∧ s.m.textValue ≠ ""
          · have hfresh : (step s (Ev.key Key.enter)).m.resultChan.closed
                = false := by
              simp [step, hq, update, hc]
            rw [hfresh] at hcl
            exact Bool.noConfusion hcl
          · by_cases hin : s.m.inputting = true
            · have hv : s.m.textValue = "" := by
                by_cases hv0 : s.m.textValue = ""
                · exact hv0
                · exact absurd ⟨hin, hv0⟩ hc
              exact Or.inl (by simpa [step, hq, update, hv, fallThru, hin,
                textInputUpdate] using hcl)
            · exact Or.inl
                (by simpa [step, hq, update, hc, fallThru, hin] using hcl)
        | esc =>
          left
          by_cases hin : s.m.inputting = true
          · simpa [step, hq, update, hin] using hcl
          · simpa [step, hq, update, fallThru, hin] using hcl
        | backspace =>
          left
          by_cases hin : s.m.inputting = true
          · simpa [step, hq, update, fallThru, hin, textInputUpdate]
              using hcl
          · simpa [step, hq, update, fallThru, hin] using hcl
        | char c =>
          left
          by_cases hin : s.m.inputting = true
          · simpa [step, hq, update, fallThru, hin, textInputUpdate]
              using hcl
          · simpa [step, hq, update, fallThru, hin] using hcl
        | other =>
          left
          by_cases hin : s.m.inputting = true
          · simpa [step, hq, update, fallThru, hin, textInputUpdate]
              using hcl
          · simpa [step, hq, update, fallThru, hin] using hcl
  · by_cases h1 : m.testing = true
      ∧ m.results.length + 1 < m.servers.length
    · simp [update, h1]
    · by_cases h2 : m.results.length + 1 = m.servers.length
      · by_cases hin : m.inputting = true
        · simp [update, h1, h2, fallThru, hin, textInputUpdate]
        · simp [update, h1, h2, fallThru, hin]
      · by_cases hin : m.inputting = true
        · simp [update, h1, h2, fallThru, hin, textInputUpdate]
        · simp [update, h1, h2, fallThru, hin]
  · by_cases h1 : m.testing = true
      ∧ m.results.length + 1 < m.servers.length
    · simp [update, h1, Nat.ne_of_lt h1.2]
    · by_cases h2 : m.results.length + 1 = m.servers.length
      · by_cases hin : m.inputting = true
        · simp [update, h1, h2, fallThru, hin, textInputUpdate]
        · simp [update, h1, h2, fallThru, hin]
      · by_cases hin : m.inputting = true
        · simp [update, h1, h2, fallThru, hin, textInputUpdate]
        · simp [update, h1, h2, fallThru, hin]

/-- Model mid-run over one host, about to receive its only result. -/
def mBefore : Model :=
  { servers := [srvA], results := [], spinner := 1, tableRows := [],
    testing := true, errMsg := none,
    resultChan := { gen := 1, capacity := 1, closed := false },
    textValue := "8.8.8.8", charLimit := 15, inputting := false,
    targetIP := "8.8.8.8" }

/-- C4 witness: processing the final result clears the testing flag by the
count comparison, via the amended statement. -/
theorem c4_amended_witness :
    (update mBefore (Msg.result resA)).1.testing = false := by
  have h := (c4_amended_stream (initSys [srvA]) Ev.tick mBefore false
    resA).2.2
  rw [h]
  decide

/-- C5 counterexample: starting a run over an empty registry reaches a state
whose collected count equals the expected count (both zero) while the mode
is Running, not Complete — the claimed iff fails for N = 0. -/
theorem c5_counterexample :
    Reachable [] sEmptyRun
    ∧ sEmptyRun.m.results.length = ([] : List Server).length
    ∧ mode sEmptyRun.m ≠ Mode.complete :=
  ⟨Reachable.next _ _ (Reachable.next _ _ (Reachable.next _ _
      Reachable.init)),
   by decide, by decide⟩

/-- C5 amended: in every reachable state, len(collected) ≤ N; for a registry
with N ≥ 1 hosts and outside destination-entry mode, the mode is Complete
iff the collected count equals N; and the mode can only move to Running
through an explicit new start (the enter key confirming a non-empty
destination while inputting).  For N = 0 the run stays Running forever even
though collected = 0 = N. -/
theorem c5_amended_invariant (servers : List Server) (s : Sys)
    (h : Reachable servers s) :
    s.m.results.length ≤ servers.length
    ∧ (1 ≤ servers.length → s.m.inputting = false →
        (mode s.m = Mode.complete ↔ s.m.results.length = servers.length))
    ∧ (∀ e : Ev, s.m.testing = false → (step s e).m.testing = true →
        s.quitted = false ∧ e = Ev.key Key.enter ∧ s.m.inputting = true
          ∧ s.m.textValue ≠ "") := by
  obtain ⟨hsrv, hlim, hlen, htest, hidle, hpend, htext, htgt⟩ :=
    inv_reachable servers s h
  refine ⟨hlen, ?_, ?_⟩
  · intro hN hinp
    constructor
    · intro hm
      cases htf : s.m.testing with
      | true => simp [mode, hinp, htf] at hm
      | false =>
        by_cases hl : 0 < s.m.results.length
        · rcases (hidle htf).2 with h0 | hN'
          · omega
          · exact hN'
        · simp [mode, hinp, htf, hl] at hm
    · intro hlen_eq
      cases htf : s.m.testing with
      | true =>
        rcases (htest htf).2.2.2 with h0 | hlt
        · omega
        · omega
      | false =>
        have hl : 0 < s.m.results.length := by omega
        simp [mode, hinp, htf, hl]
  · intro e htf hts
    by_cases hq : s.quitted = true
    · rw [show step s e = s from by simp [step, hq]] at hts
      rw [htf] at hts
      exact Bool.noConfusion hts
    · cases e with
      | tick => simp [step, hq, update, htf] at hts
      | deliver r0 =>
        cases hp : s.pending with
        | none =>
          simp [step, hq, hp, htf] at hts
        | some g =>
          by_cases hr : s.remaining = 0
          · simp [step, hq, hp, hr, htf] at hts
          · by_cases h2 : s.m.results.length + 1 = s.m.servers.length
            · by_cases hin : s.m.inputting = true
              · simp [step, hq, hp, hr, update, htf, h2, fallThru, hin,
                  textInputUpdate] at hts
              · simp [step, hq, hp, hr, update, htf, h2, fallThru, hin]
                  at hts
            · by_cases hin : s.m.inputting = true
              · simp [step, hq, hp, hr, update, htf, h2, fallThru, hin,
                  textInputUpdate] at hts
              · simp [step, hq, hp, hr, update, htf, h2, fallThru, hin]
                  at hts
      | key k =>
        cases k with
        | ctrlC => simp [step, hq, update, htf] at hts
        | q => simp [step, hq, update, htf] at hts
        | t =>
          by_cases hc : s.m.testing = false ∧ s.m.inputting = false
          · simp [step, hq, update, hc, htf] at hts
          · by_cases hin : s.m.inputting = true
            · simp [step, hq, update, hc, fallThru, hin, textInputUpdate,
                htf] at hts
            · exact absurd ⟨htf, by simpa using hin⟩ hc
        | enter =>
          by_cases hc : s.m.inputting = true ∧ s.m.textValue ≠ ""
          · have hq' : s.quitted = false := by simpa using hq
            exact ⟨hq', rfl, hc.1, hc.2⟩
          · by_cases hin : s.m.inputting = true
            · have hv : s.m.textValue = "" := by
                by_cases hv0 : s.m.textValue = ""
                · exact hv0
                · exact absurd ⟨hin, hv0⟩ hc
              simp [step, hq, update, hv, fallThru, hin, textInputUpdate,
                htf] at hts
            · simp [step, hq, update, hc, fallThru, hin, htf] at hts
        | esc =>
          by_cases hin : s.m.inputting = true
          · simp [step, hq, update, hin, htf] at hts
          · simp [step, hq, update, fallThru, hin, htf] at hts
        | backspace =>
          by_cases hin : s.m.inputting = true
          · simp [step, hq, update, fallThru, hin, textInputUpdate, htf]
              at hts
          · simp [step, hq, update, fallThru, hin, htf] at hts
        | char c =>
          by_cases hin : s.m.inputting = true
          · simp [step, hq, update, fallThru, hin, textInputUpdate, htf]
              at hts
          · simp [step, hq, update, fallThru, hin, htf] at hts
        | other =>
          by_cases hin : s.m.inputting = true
          · simp [step, hq, update, fallThru, hin, textInputUpdate, htf]
              at hts
          · simp [step, hq, update, fallThru, hin, htf] at hts

/-- C5 witness: the concrete one-host run that has collected its single
result is in mode Complete, via the amended invariant. -/
theorem c5_amended_witness : mode sDone.m = Mode.complete :=
  ((c5_amended_invariant [srvA] sDone reach_sDone).2.1 (by decide)
    (by decide)).mpr (by decide)

/-- C6: confirming a non-empty destination allocates a fresh stream — a new
generation, capacity equal to the vantage-host count, not closed — resets
the collected results to empty, and leaves the one outstanding receive
pointing at the fresh stream; moreover in every reachable state an
outstanding receive points at the current run's stream, so a result is only
ever applied after being received from the current run's stream, never a
prior run's. -/
theorem c6_fresh_stream (servers : List Server) (s : Sys)
    (h : Reachable servers s) :
    (s.quitted = false → s.m.inputting = true → s.m.textValue ≠ "" →
      (step s (Ev.key Key.enter)).m.resultChan.gen = s.m.resultChan.gen + 1
      ∧ (step s (Ev.key Key.enter)).m.resultChan.capacity = servers.length
      ∧ (step s (Ev.key Key.enter)).m.resultChan.closed = false
      ∧ (step s (Ev.key Key.enter)).m.results = []
      ∧ (step s (Ev.key Key.enter)).pending
          = some (s.m.resultChan.gen + 1)
      ∧ (step s (Ev.key Key.enter)).remaining = servers.length)
    ∧ (∀ g, s.pending = some g → g = s.m.resultChan.gen)
    ∧ (∀ r : TestResult,
        (step s (Ev.deliver r)).m.results ≠ s.m.results →
        s.pending = some s.m.resultChan.gen) := by
  obtain ⟨hsrv, hlim, hlen, htest, hidle, hpend, htext, htgt⟩ :=
    inv_reachable servers s h
  refine ⟨?_, fun g hg => (hpend g hg).1, ?_⟩
  · intro hq hin hv
    have hstep : step s (Ev.key Key.enter)
        = { m :=
              { s.m with
                targetIP := s.m.textValue,
                inputting := false,
                testing := true,
                results := [],
                resultChan :=
                  { gen := s.m.resultChan.gen + 1,
                    capacity := s.m.servers.length,
                    closed := false } },
            pending := some (s.m.resultChan.gen + 1),
            remaining := s.m.servers.length,
            quitted := false } := by
      simp [step, hq, update, hin, hv]
    rw [hstep]
    refine ⟨rfl, ?_, rfl, rfl, rfl, ?_⟩
    · show s.m.servers.length = servers.length
      rw [hsrv]
    · show s.m.servers.length = servers.length
      rw [hsrv]
  · intro r hne
    cases hp : s.pending with
    | none =>
      have hid : step s (Ev.deliver r) = s := by
        by_cases hq : s.quitted = true <;> simp [step, hq, hp]
      rw [hid] at hne
      exact absurd rfl hne
    | some g =>
      rw [(hpend g hp).1]

/-- C6 witness: the concrete start step over the typed-in one-host state,
via the theorem. -/
theorem c6_fresh_stream_witness :
    (step sInput (Ev.key Key.enter)).m.resultChan.gen
      = sInput.m.resultChan.gen + 1
    ∧ (step sInput (Ev.key Key.enter)).m.resultChan.capacity = 1
    ∧ (step sInput (Ev.key Key.enter)).m.results = [] := by
  have h := (c6_fresh_stream [srvA] sInput reach_sInput).1 rfl rfl
    (by decide)
  exact ⟨h.1, h.2.1, h.2.2.2.1⟩

/-- C10: the destination input accepts at most 15 characters (its char
limit), so in every reachable state the text value is at most 15 characters
long and any destination a run was started with has between 1 and 15
characters. -/
theorem c10_destination_length (servers : List Server) (s : Sys)
    (h : Reachable servers s) :
    s.m.charLimit = 15
    ∧ s.m.textValue.length ≤ 15
    ∧ (s.m.targetIP ≠ "" →
        1 ≤ s.m.targetIP.length ∧ s.m.targetIP.length ≤ 15) := by
  obtain ⟨hsrv, hlim, hlen, htest, hidle, hpend, htext, htgt⟩ :=
    inv_reachable servers s h
  refine ⟨hlim, htext, ?_⟩
  intro hne
  rcases htgt with h0 | hb
  · exact absurd h0 hne
  · exact hb

/-- C10 witness: the started run's destination "8" has length 1, via the
theorem. -/
theorem c10_destination_length_witness :
    1 ≤ sRun.m.targetIP.length ∧ sRun.m.targetIP.length ≤ 15 :=
  (c10_destination_length [srvA] sRun reach_sRun).2.2 (by decide)

end PingTest
